import Mathlib

/-!
Verification of the live-spectrogram data pipeline.

The heights buffer of the app is a JS `Uint8Array`; we embed it as a
`List ℕ` whose writes reduce modulo 256 (`Uint8Array` element coercion)
and whose out-of-range indexed writes are silently ignored, as JS typed
arrays do.  Indices that the source computes with JS number arithmetic
(which can go negative) are carried as `ℤ`.
-/

namespace Spectrogram

/-- JS `Uint8Array` write `l[i] = v`: stores `v % 256`; a write outside
`[0, l.length)` is a silent no-op (typed-array canonical index semantics). -/
def setAt (l : List ℕ) (i : ℤ) (v : ℕ) : List ℕ :=
  if 0 ≤ i ∧ i < l.length then l.set i.toNat (v % 256) else l

/-- JS read `l[i] || 0`: an in-range read yields the element, an
out-of-range read yields `undefined` which `|| 0` turns into `0`
(and a stored `0` is also mapped to `0` by `|| 0`, which is the identity
on the stored value here). -/
def getAt (l : List ℕ) (i : ℤ) : ℕ :=
  if 0 ≤ i ∧ i < l.length then l.getD i.toNat 0 else 0

/-- `TypedArray.prototype.copyWithin(target, start, stop)` for nonnegative
arguments: memmove semantics — every element of the destination window is
the corresponding element of the *pre-call* buffer, so overlapping source
and destination ranges are handled correctly.  `count` is clamped exactly
as in the ECMAScript specification. -/
def copyWithin (l : List ℕ) (target start stop : ℕ) : List ℕ :=
  let len := l.length
  let e := min stop len
  let s := min start len
  let count := min (e - s) (len - target)
  (List.range len).map fun i =>
    if target ≤ i ∧ i < target + count then l.getD (s + (i - target)) 0 else l.getD i 0

/-- The shift step of `updateSpectrogramData`
(`heights.copyWithin(0, start_val, nVertices + 1)` with
`start_val = frequencySamples + 1`). -/
def shiftHeightsLeft (heights : List ℕ) (frequencySamples nVertices : ℕ) : List ℕ :=
  copyWithin heights 0 (frequencySamples + 1) (nVertices + 1)

/-- `updateSpectrogramData` from `spectrogramAnimation.ts`.  The analyzer
read (`getByteFrequencyData` into `tempData`, copied to `dataArray`) is
modelled by passing the sampled column `sample` directly; the rest follows
the source line by line:

* `start_val = frequencySamples + 1`, `end_val = nVertices - start_val`;
* shift: `heights.copyWithin(0, start_val, nVertices + 1)`;
* `insertStart = end_val - start_val`;
* insertion loop over `j = 0 .. frequencySamples`, writing
  `dataArray[j] || 0` for `j < frequencySamples` and duplicating
  `heights[insertStart + j - 1] || 0` at the closing vertex. -/
def updateSpectrogramData (sample heights : List ℕ)
    (frequencySamples nVertices : ℕ) : List ℕ :=
  let dataArray := sample
  let start_val : ℤ := (frequencySamples : ℤ) + 1
  let end_val : ℤ := (nVertices : ℤ) - start_val
  let shifted := shiftHeightsLeft heights frequencySamples nVertices
  let insertStart : ℤ := end_val - start_val
  (List.range (frequencySamples + 1)).foldl
    (fun h j =>
      if j < frequencySamples then
        setAt h (insertStart + j) (dataArray.getD j 0)
      else
        setAt h (insertStart + j) (getAt h (insertStart + j - 1)))
    shifted

/-- The animation loop's effect on the heights buffer: `tickN … m` is the
buffer after `m` animation frames, starting from the zero-initialized
buffer produced by the geometry build; `samples t` is the analyzer column
delivered at frame `t`. -/
def tickN (frequencySamples nVertices : ℕ) (samples : ℕ → List ℕ) : ℕ → List ℕ
  | 0 => List.replicate nVertices 0
  | m + 1 => updateSpectrogramData (samples m) (tickN frequencySamples nVertices samples m)
      frequencySamples nVertices

/-- A naive sequential in-place forward loop performing the same shift:
`for k = 0, 1, …, count-1: heights[k] = heights[k + stride]`, each read
seeing the writes already performed.  Its agreement with `copyWithin`
shows the overlapping copy is safe in this direction. -/
def shiftLoopInPlace (heights : List ℕ) (stride count : ℕ) : List ℕ :=
  (List.range count).foldl (fun h k => h.set k (h.getD (k + stride) 0)) heights

/-- The parameter record handed to `validateParameters` and the geometry
build.  The JS numbers carrying the sample counts are embedded as `ℤ`
(they are integers from the sliders but could be any number), the size
values as exact rationals. -/
structure SpectrogramParams where
  timeSamples : ℤ
  frequencySamples : ℤ
  xsize : ℚ
  ysize : ℚ

/-- `calculateVertexCount` from `spectrogramHelpers.ts`. -/
def calculateVertexCount (frequencySamples timeSamples : ℤ) : ℤ :=
  (frequencySamples + 1) * (timeSamples + 1)

structure ValidationResult where
  valid : Bool
  errors : List String
deriving DecidableEq

/-- `validateParameters` from `spectrogramHelpers.ts`: pushes one message
per non-positive field, `valid` iff no message was pushed. -/
def validateParameters (p : SpectrogramParams) : ValidationResult :=
  let errors : List String := []
  let errors := if p.xsize ≤ 0 then errors ++ ["xsize must be greater than 0"] else errors
  let errors := if p.ysize ≤ 0 then errors ++ ["ysize must be greater than 0"] else errors
  let errors :=
    if p.frequencySamples ≤ 0 then errors ++ ["frequencySamples must be greater than 0"]
    else errors
  let errors :=
    if p.timeSamples ≤ 0 then errors ++ ["timeSamples must be greater than 0"] else errors
  { valid := errors.length == 0, errors := errors }

/-- `ANALYSER_CONFIG.MIN_FFT_SIZE` (2^8). -/
def MIN_FFT_SIZE : ℝ := 256

/-- `ANALYSER_CONFIG.MAX_FFT_SIZE` (2^14). -/
def MAX_FFT_SIZE : ℝ := 16384

/-- `ANALYSER_CONFIG.FFT_MULTIPLIER`. -/
def FFT_MULTIPLIER : ℤ := 4

/-- `getNearestPowerOf2` from `spectrogramHelpers.ts`:
`Math.round`/`Math.log2`/`Math.pow` over ideal reals; Mathlib's `round`
(`⌊x + 1/2⌋`) agrees with JS `Math.round` on every input. -/
noncomputable def getNearestPowerOf2 (value : ℝ) : ℝ :=
  if value ≤ 0 then MIN_FFT_SIZE
  else
    (2 : ℝ) ^ (max (Real.logb 2 MIN_FFT_SIZE)
      (min (Real.logb 2 MAX_FFT_SIZE) ((round (Real.logb 2 value) : ℤ) : ℝ)))

/-- `calculateFFTSize` from `spectrogramHelpers.ts`. -/
noncomputable def calculateFFTSize (frequencySamples : ℤ) : ℝ :=
  getNearestPowerOf2 ((FFT_MULTIPLIER : ℝ) * (frequencySamples : ℝ))

/-- The FFT window size in the words of the spec: `2^round(log2(4×F))`
clamped to the range `[2^8, 2^14]`.  Kept separate from
`calculateFFTSize` so the code can be compared against it. -/
noncomputable def fftWindowSpec (frequencySamples : ℤ) : ℝ :=
  min (max ((2 : ℝ) ^ (round (Real.logb 2 (4 * (frequencySamples : ℝ))))) ((2 : ℝ) ^ (8 : ℤ)))
    ((2 : ℝ) ^ (14 : ℤ))

/-- `calculateLogarithmicY` from `spectrogramHelpers.ts`
(`Math.pow(Math.E, powr)` is `Real.exp powr`). -/
noncomputable def calculateLogarithmicY (segmentIndex totalSegments : ℤ) (ysize : ℚ) : ℝ :=
  let ypow_max := Real.log (ysize : ℝ)
  let yhalfSize := (ysize : ℝ) / 2
  let powr := ((((totalSegments : ℝ) - (segmentIndex : ℝ)) / (totalSegments : ℝ)) * ypow_max)
  (-Real.exp powr) + yhalfSize + 1

/-- The vertex stream of `generateVertices` (geometry helpers): nested
loops `for i in 0..xsegments`, `for j in 0..ysegments` pushing `x, y, 0`. -/
noncomputable def generateVerticesList (p : SpectrogramParams) : List ℝ :=
  let xsegments := p.timeSamples
  let ysegments := p.frequencySamples
  let xhalfSize := (p.xsize : ℝ) / 2
  let xsegmentSize := (p.xsize : ℝ) / (xsegments : ℝ)
  (List.range (xsegments + 1).toNat).flatMap fun i =>
    (List.range (ysegments + 1).toNat).flatMap fun j =>
      [(i : ℝ) * xsegmentSize - xhalfSize, calculateLogarithmicY j ysegments p.ysize, 0]

/-- The heights buffer built by `generateVertices`:
`new Uint8Array(nVertices)` (zero-filled), then the same nested loops
write `heights[i * (ysegments + 1) + j] = 0`. -/
def generateVerticesHeights (p : SpectrogramParams) : List ℕ :=
  let xsegments := p.timeSamples
  let ysegments := p.frequencySamples
  let nVertices := (p.frequencySamples + 1) * (p.timeSamples + 1)
  (List.range (xsegments + 1).toNat).foldl
    (fun h i =>
      (List.range (ysegments + 1).toNat).foldl
        (fun h j => setAt h ((i : ℤ) * (ysegments + 1) + (j : ℤ)) 0) h)
    (List.replicate nVertices.toNat 0)

/-- `nVertices` as computed by `generateVertices`. -/
def generateVerticesCount (p : SpectrogramParams) : ℤ :=
  (p.frequencySamples + 1) * (p.timeSamples + 1)

structure GenerateVerticesResult where
  vertices : List ℝ
  heights : List ℕ
  nVertices : ℤ

/-- `generateVertices` bundling its three results. -/
noncomputable def generateVertices (p : SpectrogramParams) : GenerateVerticesResult :=
  { vertices := generateVerticesList p
    heights := generateVerticesHeights p
    nVertices := generateVerticesCount p }

/-- `generateIndices` (geometry helpers): per quad `(i, j)` pushes the two
triangles `a, b, d` and `b, c, d`. -/
def generateIndices (timeSamples frequencySamples : ℤ) : List ℤ :=
  let xsegments := timeSamples
  let ysegments := frequencySamples
  (List.range xsegments.toNat).flatMap fun i =>
    (List.range ysegments.toNat).flatMap fun j =>
      let a := (i : ℤ) * (ysegments + 1) + ((j : ℤ) + 1)
      let b := (i : ℤ) * (ysegments + 1) + (j : ℤ)
      let c := ((i : ℤ) + 1) * (ysegments + 1) + (j : ℤ)
      let d := ((i : ℤ) + 1) * (ysegments + 1) + ((j : ℤ) + 1)
      [a, b, d, b, c, d]

/-- The refs of `LiveSpectrogram.tsx` that hold the built geometry data. -/
structure ThreeRefs where
  heights : Option (List ℕ)
  nVertices : Option ℤ
deriving DecidableEq

/-- The validation guard of `initializeThree` in `LiveSpectrogram.tsx`:
when `validateParameters` reports invalid the function returns before the
teardown/rebuild, leaving the previous geometry refs untouched; otherwise
the refs are overwritten with the fresh build. -/
def initThree (p : SpectrogramParams) (st : ThreeRefs) : ThreeRefs :=
  if (validateParameters p).valid then
    { heights := some (generateVerticesHeights p)
      nVertices := some (generateVerticesCount p) }
  else st

/-- `getColor` from the fragment shader, scheme by scheme, with the GLSL
float literals as exact rationals. -/
def getColor (intensity : ℚ) (colorScheme : ℤ) : ℚ × ℚ × ℚ :=
  if colorScheme = 0 then (intensity, 1 - intensity, 0)
  else if colorScheme = 1 then
    (if intensity < 0.5 then
      (intensity * 2 * 0.5, intensity * 2 * 0.2, intensity * 2 * 1)
    else
      (0.5 + (intensity - 0.5) * 2 * 0.5, 0.2 + (intensity - 0.5) * 2 * 0.8,
        1 - (intensity - 0.5) * 2 * 0.5))
  else if colorScheme = 2 then (0, intensity, 1)
  else if colorScheme = 3 then
    (0.2627 * (0.3 + intensity * 0.7), 0.2471 * (0.3 + intensity * 0.7),
      0.5059 * (0.3 + intensity * 0.7))
  else if colorScheme = 4 then (1, intensity, 0)
  else if colorScheme = 5 then (intensity, 0, 1)
  else if colorScheme = 6 then
    (let hue := intensity * 5
    if hue < 1 then (1, hue, 0)
    else if hue < 2 then (2 - hue, 1, 0)
    else if hue < 3 then (0, 1, hue - 2)
    else if hue < 4 then (0, 4 - hue, 1)
    else if hue < 5 then (hue - 4, 0, 1)
    else (1, 0, 6 - hue))
  else if colorScheme = 7 then (intensity, intensity, intensity)
  else if colorScheme = 8 then (1, 0.5 * (1 - intensity), 0)
  else if colorScheme = 9 then (0, 1 - intensity, 1)
  else if colorScheme = 10 then (1 - intensity, 1, 0)
  else
    (0.2627 * (0.3 + intensity * 0.7), 0.2471 * (0.3 + intensity * 0.7),
      0.5059 * (0.3 + intensity * 0.7))

/-- The per-scheme near-zero override table of the fragment shader's
`main` (`if (intensity < 0.01) { … }`). -/
def darkTint (colorScheme : ℤ) : ℚ × ℚ × ℚ :=
  if colorScheme = 0 then (0, 0.1, 0)
  else if colorScheme = 1 then (0.05, 0, 0.1)
  else if colorScheme = 2 then (0, 0, 0.1)
  else if colorScheme = 3 then (0.08, 0.07, 0.15)
  else if colorScheme = 4 then (0.1, 0, 0)
  else if colorScheme = 5 then (0, 0, 0.1)
  else if colorScheme = 6 then (0.05, 0, 0)
  else if colorScheme = 7 then (0.05, 0.05, 0.05)
  else if colorScheme = 8 then (0.1, 0.05, 0)
  else if colorScheme = 9 then (0, 0.1, 0.1)
  else if colorScheme = 10 then (0.1, 0.1, 0)
  else (0.08, 0.07, 0.15)

/-- The fragment shader's `main` as a function of the normalized intensity
and the scheme uniform: gradient colour plus glow, overridden by the
per-scheme dark tint when `intensity < 0.01`. -/
def fragmentMain (intensity : ℚ) (colorScheme : ℤ) : ℚ × ℚ × ℚ :=
  let color := getColor intensity colorScheme
  let glow := if intensity > 0.5 then (intensity - 0.5) * 0.5 else 0
  let finalColor := (color.1 + glow, color.2.1 + glow, color.2.2 + glow)
  if intensity < 0.01 then
    if colorScheme = 0 then (0, 0.1, 0)
    else if colorScheme = 1 then (0.05, 0, 0.1)
    else if colorScheme = 2 then (0, 0, 0.1)
    else if colorScheme = 3 then (0.08, 0.07, 0.15)
    else if colorScheme = 4 then (0.1, 0, 0)
    else if colorScheme = 5 then (0, 0, 0.1)
    else if colorScheme = 6 then (0.05, 0, 0)
    else if colorScheme = 7 then (0.05, 0.05, 0.05)
    else if colorScheme = 8 then (0.1, 0.05, 0)
    else if colorScheme = 9 then (0, 0.1, 0.1)
    else if colorScheme = 10 then (0.1, 0.1, 0)
    else (0.08, 0.07, 0.15)
  else finalColor

inductive CtxState where
  | running
  | suspended
  | closed
deriving DecidableEq

structure AudioCtx where
  state : CtxState
deriving DecidableEq

structure SourceNode where
  connected : Bool
deriving DecidableEq

/-- `source.disconnect()` in the worst case the code defends against:
raising when there is no connection to sever. -/
def disconnectPrim (s : SourceNode) : Except String SourceNode :=
  if s.connected then .ok { connected := false } else .error "InvalidAccessError"

/-- `audioContext.close()`: rejects with `InvalidStateError` on an
already-closed context, otherwise transitions it to closed. -/
def closePrim (c : AudioCtx) : Except String AudioCtx :=
  if c.state = CtxState.closed then .error "InvalidStateError"
  else .ok { state := CtxState.closed }

/-- `cleanupAudio` from `spectrogramAudio.ts`: `source.disconnect()` in a
try/catch that ignores errors, then `audioContext.close().catch(ignore)`
guarded by `state !== 'closed'`.  The result carries the resource states
after the call; an uncaught exception would surface as `.error`. -/
def cleanupAudio (source : Option SourceNode) (audioContext : Option AudioCtx) :
    Except String (Option SourceNode × Option AudioCtx) :=
  let source' := match source with
    | some s =>
      match disconnectPrim s with
      | .ok s' => some s'
      | .error _ => some s
    | none => none
  let audioContext' := match audioContext with
    | some c =>
      if c.state ≠ CtxState.closed then
        match closePrim c with
        | .ok c' => some c'
        | .error _ => some c
      else some c
    | none => none
  .ok (source', audioContext')

structure MediaTrack where
  live : Bool
deriving DecidableEq

/-- `track.stop()` (total and idempotent per the MediaStream spec). -/
def stopTrack (_t : MediaTrack) : MediaTrack := { live := false }

/-- `stopMicrophone` from the mic helpers: `stream.getTracks().forEach(stop)`,
then `await audioContext.close()` inside try/catch, guarded by
`state !== 'closed'`. -/
def stopMicrophone (stream : Option (List MediaTrack)) (audioContext : Option AudioCtx) :
    Except String (Option (List MediaTrack) × Option AudioCtx) :=
  let stream' := match stream with
    | some ts => some (ts.map stopTrack)
    | none => none
  let audioContext' := match audioContext with
    | some c =>
      if c.state ≠ CtxState.closed then
        match closePrim c with
        | .ok c' => some c'
        | .error _ => some c
      else some c
    | none => none
  .ok (stream', audioContext')

/-- Released (Idle) state of the radio session's audio resources. -/
def audioReleased (st : Option SourceNode × Option AudioCtx) : Prop :=
  (∀ s ∈ st.1, s.connected = false) ∧ ∀ c ∈ st.2, c.state = CtxState.closed

/-- Released (Idle) state of the microphone session's resources. -/
def micReleased (st : Option (List MediaTrack) × Option AudioCtx) : Prop :=
  (∀ ts ∈ st.1, ∀ t ∈ ts, t.live = false) ∧ ∀ c ∈ st.2, c.state = CtxState.closed

lemma setAt_length (l : List ℕ) (i : ℤ) (v : ℕ) : (setAt l i v).length = l.length := by
  unfold setAt
  split <;> simp

lemma copyWithin_length (l : List ℕ) (target start stop : ℕ) :
    (copyWithin l target start stop).length = l.length := by
  unfold copyWithin
  simp

lemma foldl_length_preserved (f : List ℕ → ℕ → List ℕ)
    (hf : ∀ h j, (f h j).length = h.length) (js : List ℕ) (h0 : List ℕ) :
    (js.foldl f h0).length = h0.length := by
  induction js generalizing h0 with
  | nil => rfl
  | cons j js ih => rw [List.foldl_cons, ih, hf]

lemma updateSpectrogramData_length (sample heights : List ℕ) (F n : ℕ) :
    (updateSpectrogramData sample heights F n).length = heights.length := by
  unfold updateSpectrogramData
  rw [foldl_length_preserved]
  · exact copyWithin_length ..
  · intro h j
    split <;> exact setAt_length ..

/-- Pointwise description of the shift step: with `stride = F + 1` and a
buffer of length `n ≥ stride`, every index below `n - stride` receives the
element one column to its right, and every other index is untouched.
Because the right-hand side reads only the pre-call buffer, this is
exactly the overlap-safe (memmove) behaviour. -/
lemma shiftHeightsLeft_getD (heights : List ℕ) (F n k : ℕ)
    (hlen : heights.length = n) (hs : F + 1 ≤ n) :
    (shiftHeightsLeft heights F n).getD k 0 =
      if k < n - (F + 1) then heights.getD (k + (F + 1)) 0 else heights.getD k 0 := by
  subst hlen
  unfold shiftHeightsLeft copyWithin
  by_cases hk : k < heights.length
  · rw [List.getD_eq_getElem?_getD, List.getElem?_map, List.getElem?_range hk]
    have h3 : min (min (heights.length + 1) heights.length - min (F + 1) heights.length)
        (heights.length - 0) = heights.length - (F + 1) := by omega
    have h4 : min (F + 1) heights.length = F + 1 := by omega
    simp only [h3, h4, Nat.zero_le, true_and, Nat.zero_add, Nat.sub_zero, Option.map_some',
      Option.getD_some]
    split
    · rw [if_pos (by omega), Nat.add_comm]
    · rw [if_neg (by omega)]
  · rw [List.getD_eq_getElem?_getD, List.getElem?_map]
    have hnone : (List.range heights.length)[k]? = none := by
      rw [List.getElem?_eq_none]
      simpa using (by omega : heights.length ≤ k)
    rw [hnone, if_neg (by omega), List.getD_eq_default _ _ (by omega)]
    rfl

lemma getD_set (l : List ℕ) (i k v : ℕ) :
    (l.set i v).getD k 0 = if i = k ∧ i < l.length then v else l.getD k 0 := by
  rw [List.getD_eq_getElem?_getD, List.getElem?_set]
  by_cases h : i = k
  · subst h
    by_cases h2 : i < l.length
    · simp [h2]
    · simp only [if_pos rfl, if_neg h2, Option.getD_none, h2, and_false, if_false]
      exact (List.getD_eq_default _ _ (by omega)).symm
  · simp only [if_neg h, h, false_and, if_false]
    rw [List.getD_eq_getElem?_getD]

lemma shiftLoopInPlace_getD (heights : List ℕ) (stride count : ℕ)
    (hcnt : count + stride ≤ heights.length) :
    ∀ k, (shiftLoopInPlace heights stride count).getD k 0 =
      if k < count then heights.getD (k + stride) 0 else heights.getD k 0 := by
  induction count with
  | zero =>
    intro k
    simp [shiftLoopInPlace]
  | succ m ih =>
    intro k
    have ihm := ih (by omega)
    unfold shiftLoopInPlace at ihm ⊢
    rw [List.range_succ, List.foldl_append, List.foldl_cons, List.foldl_nil]
    have hlenL : ((List.range m).foldl (fun h k => h.set k (h.getD (k + stride) 0))
        heights).length = heights.length :=
      foldl_length_preserved _ (fun h j => by rw [List.length_set]) _ _
    rw [getD_set, hlenL]
    by_cases hk : m = k
    · subst hk
      rw [if_pos ⟨rfl, by omega⟩, ihm, if_neg (by omega), if_pos (by omega)]
    · rw [if_neg (by tauto), ihm]
      by_cases h2 : k < m
      · rw [if_pos h2, if_pos (by omega)]
      · rw [if_neg h2, if_neg (by omega)]

lemma eq_of_getD (l l' : List ℕ) (hlen : l.length = l'.length)
    (h : ∀ k, l.getD k 0 = l'.getD k 0) : l = l' := by
  apply List.ext_getElem hlen
  intro i h1 h2
  have hi := h i
  rw [List.getD_eq_getElem?_getD, List.getD_eq_getElem?_getD,
    List.getElem?_eq_getElem h1, List.getElem?_eq_getElem h2] at hi
  simpa using hi

lemma shiftLoopInPlace_length (heights : List ℕ) (stride count : ℕ) :
    (shiftLoopInPlace heights stride count).length = heights.length :=
  foldl_length_preserved _ (fun h j => by rw [List.length_set]) _ _

lemma foldl_getD_preserved (f : List ℕ → ℕ → List ℕ) (js : List ℕ) (k : ℕ)
    (hf : ∀ h j, j ∈ js → (f h j).getD k 0 = h.getD k 0) :
    ∀ h0 : List ℕ, (js.foldl f h0).getD k 0 = h0.getD k 0 := by
  induction js with
  | nil => intro h0; rfl
  | cons j js ih =>
    intro h0
    rw [List.foldl_cons, ih (fun h j' hj' => hf h j' (List.mem_cons_of_mem _ hj')),
      hf _ _ (List.mem_cons_self ..)]

lemma setAt_getD_ne (l : List ℕ) (i : ℤ) (v : ℕ) (k : ℕ) (h : i ≠ (k : ℤ)) :
    (setAt l i v).getD k 0 = l.getD k 0 := by
  unfold setAt
  split
  · next hin =>
    rw [getD_set, if_neg]
    rintro ⟨h1, _⟩
    exact h (by omega)
  · rfl

/-- One tick never touches the final time column: `updateSpectrogramData`
leaves every index at or beyond `nVertices - (frequencySamples + 1)`
unchanged (the shift's destination window ends before it, and the
insertion writes only the second-to-last column). -/
lemma update_preserves_final_column (sample heights : List ℕ) (F n k : ℕ)
    (hlen : heights.length = n) (hT : 2 * (F + 1) ≤ n) (hk : n - (F + 1) ≤ k) :
    (updateSpectrogramData sample heights F n).getD k 0 = heights.getD k 0 := by
  simp only [updateSpectrogramData]
  rw [foldl_getD_preserved]
  · rw [shiftHeightsLeft_getD heights F n k hlen (by omega), if_neg (by omega)]
  · intro h j hj
    have hj' : j < F + 1 := List.mem_range.mp hj
    split
    · exact setAt_getD_ne _ _ _ _ (by omega)
    · exact setAt_getD_ne _ _ _ _ (by omega)

lemma tickN_length (F n : ℕ) (samples : ℕ → List ℕ) (m : ℕ) :
    (tickN F n samples m).length = n := by
  induction m with
  | zero => simp [tickN]
  | succ m ih => rw [tickN, updateSpectrogramData_length, ih]

lemma set_replicate_zero (n i : ℕ) : (List.replicate n (0 : ℕ)).set i 0 = List.replicate n 0 := by
  induction n generalizing i with
  | zero => rfl
  | succ n ih =>
    cases i with
    | zero => simp [List.replicate_succ]
    | succ i => simp [List.replicate_succ, ih]

lemma setAt_replicate_zero (n : ℕ) (i : ℤ) :
    setAt (List.replicate n 0) i 0 = List.replicate n 0 := by
  unfold setAt
  split
  · rw [Nat.zero_mod, set_replicate_zero]
  · rfl

lemma foldl_fixpoint {α : Type} (f : List ℕ → α → List ℕ) (z : List ℕ)
    (hf : ∀ a, f z a = z) (l : List α) : l.foldl f z = z := by
  induction l with
  | nil => rfl
  | cons a l ih => rw [List.foldl_cons, hf, ih]

lemma generateVerticesHeights_eq (p : SpectrogramParams) :
    generateVerticesHeights p =
      List.replicate ((p.frequencySamples + 1) * (p.timeSamples + 1)).toNat 0 := by
  simp only [generateVerticesHeights]
  apply foldl_fixpoint
  intro i
  apply foldl_fixpoint
  intro j
  exact setAt_replicate_zero _ _

lemma logb_two_pow (k : ℕ) : Real.logb 2 ((2 : ℝ) ^ k) = k := by
  rw [Real.logb_pow, Real.logb_self_eq_one one_lt_two, mul_one]

lemma logb_two_256 : Real.logb 2 (256 : ℝ) = 8 := by
  have h : (256 : ℝ) = 2 ^ (8 : ℕ) := by norm_num
  rw [h, logb_two_pow]
  norm_num

lemma logb_two_16384 : Real.logb 2 (16384 : ℝ) = 14 := by
  have h : (16384 : ℝ) = 2 ^ (14 : ℕ) := by norm_num
  rw [h, logb_two_pow]
  norm_num

lemma getNearestPowerOf2_pow (k : ℕ) (h8 : 8 ≤ k) (h14 : k ≤ 14) :
    getNearestPowerOf2 ((2 : ℝ) ^ k) = (2 : ℝ) ^ k := by
  unfold getNearestPowerOf2 MIN_FFT_SIZE MAX_FFT_SIZE
  rw [if_neg (not_le.mpr (by positivity)), logb_two_256, logb_two_16384, logb_two_pow,
    round_natCast]
  have hmin : min (14 : ℝ) (k : ℝ) = (k : ℝ) := min_eq_right (by exact_mod_cast h14)
  have hmax : max (8 : ℝ) (k : ℝ) = (k : ℝ) := max_eq_right (by exact_mod_cast h8)
  push_cast
  rw [hmin, hmax, Real.rpow_natCast]

lemma flatMap_length_const {α : Type} (f : ℕ → List α) (c n : ℕ)
    (hf : ∀ k, (f k).length = c) : ((List.range n).flatMap f).length = n * c := by
  induction n with
  | zero => simp
  | succ n ih =>
    rw [List.range_succ, List.flatMap_append, List.length_append, ih]
    simp only [List.flatMap_cons, List.flatMap_nil, List.append_nil, hf]
    ring

lemma flatMap_range_getElem {α : Type} (f : ℕ → List α) (c : ℕ)
    (hf : ∀ k, (f k).length = c) (q r : ℕ) (hr : r < c) :
    ∀ n, q < n → ((List.range n).flatMap f)[q * c + r]? = (f q)[r]? := by
  intro n
  induction n with
  | zero =>
    intro hq
    exact absurd hq (Nat.not_lt_zero q)
  | succ n ih =>
    intro hq
    rw [List.range_succ, List.flatMap_append, List.getElem?_append,
      flatMap_length_const f c n hf]
    by_cases hqn : q < n
    · have hlt : q * c + r < n * c := by
        calc q * c + r < q * c + c := Nat.add_lt_add_left hr _
          _ = (q + 1) * c := by ring
          _ ≤ n * c := Nat.mul_le_mul_right c hqn
      rw [if_pos hlt]
      exact ih hqn
    · have hq' : q = n := by omega
      subst hq'
      rw [if_neg (Nat.not_lt.mpr (Nat.le_add_right _ _))]
      simp only [List.flatMap_cons, List.flatMap_nil, List.append_nil,
        Nat.add_sub_cancel_left]

/-- Component extraction from the vertex stream: the vertex of grid cell
`(i, j)` occupies positions `i * ((F+1)*3) + (j*3 + comp)` for
`comp = 0, 1, 2`, holding `x`, `y`, `0` as pushed by the loops. -/
lemma generateVerticesList_getElem (p : SpectrogramParams) (i j comp : ℕ)
    (hi : i < (p.timeSamples + 1).toNat) (hj : j < (p.frequencySamples + 1).toNat)
    (hc : comp < 3) :
    (generateVerticesList p)[i * ((p.frequencySamples + 1).toNat * 3) + (j * 3 + comp)]? =
      [(i : ℝ) * ((p.xsize : ℝ) / ((p.timeSamples : ℤ) : ℝ)) - (p.xsize : ℝ) / 2,
        calculateLogarithmicY (j : ℤ) p.frequencySamples p.ysize, (0 : ℝ)][comp]? := by
  simp only [generateVerticesList]
  rw [flatMap_range_getElem
      (fun i => (List.range (p.frequencySamples + 1).toNat).flatMap fun j =>
        [(i : ℝ) * ((p.xsize : ℝ) / ((p.timeSamples : ℤ) : ℝ)) - (p.xsize : ℝ) / 2,
          calculateLogarithmicY (j : ℤ) p.frequencySamples p.ysize, (0 : ℝ)])
      ((p.frequencySamples + 1).toNat * 3)
      (fun k => flatMap_length_const _ 3 _ (fun _ => rfl)) i (j * 3 + comp)
      (by omega) _ hi,
    flatMap_range_getElem
      (fun j => [(i : ℝ) * ((p.xsize : ℝ) / ((p.timeSamples : ℤ) : ℝ)) - (p.xsize : ℝ) / 2,
        calculateLogarithmicY (j : ℤ) p.frequencySamples p.ysize, (0 : ℝ)])
      3 (fun _ => rfl) j comp hc _ hj]

/-- C1 (code-bug evidence): with `frequencySamples = 1` and `timeSamples = 2`
(`nVertices = 6`, `stride = 2`), one tick on the zero-initialized buffer
with analyzer column `[200]` yields `[0, 0, 200, 200, 0, 0]`: the code
computes `insertStart = end_val - start_val = nVertices - 2*stride = 2`
and writes the new column there, so the rightmost column's base index
`nVertices - stride = 4` — where the claim requires the sampled value
`200` — still holds `0`. -/
theorem update_inserts_second_to_last_column :
    updateSpectrogramData [200] (List.replicate 6 0) 1 6 = [0, 0, 200, 200, 0, 0]
    ∧ (updateSpectrogramData [200] (List.replicate 6 0) 1 6).getD 4 0 ≠ 200 := by
  constructor
  · decide
  · decide

/-- C2: each tick first shifts the heights buffer left by exactly one
column: with `stride = frequencySamples + 1`, every post-shift index
`k < nVertices - stride` holds the pre-tick value at index `k + stride`;
the memmove-style result coincides with a sequential in-place forward
copy, so the overlapping in-place copy is safe; and neither the shift nor
the whole tick changes the buffer's length. -/
theorem shift_left_one_column_correct (F n : ℕ) (heights : List ℕ)
    (hlen : heights.length = n) (hs : F + 1 ≤ n) :
    (∀ k, k < n - (F + 1) →
      (shiftHeightsLeft heights F n).getD k 0 = heights.getD (k + (F + 1)) 0)
    ∧ shiftHeightsLeft heights F n = shiftLoopInPlace heights (F + 1) (n - (F + 1))
    ∧ (shiftHeightsLeft heights F n).length = heights.length
    ∧ ∀ sample, (updateSpectrogramData sample heights F n).length = heights.length := by
  refine ⟨?_, ?_, ?_, ?_⟩
  · intro k hk
    rw [shiftHeightsLeft_getD heights F n k hlen hs, if_pos hk]
  · apply eq_of_getD
    · calc (shiftHeightsLeft heights F n).length = heights.length := copyWithin_length ..
        _ = (shiftLoopInPlace heights (F + 1) (n - (F + 1))).length :=
          (shiftLoopInPlace_length ..).symm
    · intro k
      rw [shiftHeightsLeft_getD heights F n k hlen hs,
        shiftLoopInPlace_getD heights (F + 1) (n - (F + 1)) (by omega) k]
  · exact copyWithin_length ..
  · intro sample
    exact updateSpectrogramData_length ..

/-- Witness for the shift theorem at a concrete buffer. -/
theorem shift_left_one_column_correct_witness :
    [1, 2, 3, 4].length = 4 ∧ 1 + 1 ≤ 4 ∧
      (shiftHeightsLeft [1, 2, 3, 4] 1 4).getD 0 0 = [1, 2, 3, 4].getD (0 + (1 + 1)) 0 :=
  ⟨by decide, by decide,
    (shift_left_one_column_correct 1 4 [1, 2, 3, 4] (by decide) (by decide)).1 0 (by decide)⟩

/-- C3: the tick function never writes the final time column
`[nVertices - (frequencySamples + 1), nVertices - 1]` (the shift's
destination window ends before it and the insertion targets the
second-to-last column), so starting from the zero-initialized buffer the
rightmost column is still all zeros after any number of ticks. -/
theorem final_column_stays_zero (F T : ℕ) (hT : 1 ≤ T) :
    (∀ (heights sample : List ℕ) (k : ℕ), heights.length = (F + 1) * (T + 1) →
      (F + 1) * (T + 1) - (F + 1) ≤ k →
      (updateSpectrogramData sample heights F ((F + 1) * (T + 1))).getD k 0
        = heights.getD k 0)
    ∧ ∀ (samples : ℕ → List ℕ) (m k : ℕ), (F + 1) * (T + 1) - (F + 1) ≤ k →
      k < (F + 1) * (T + 1) →
      (tickN F ((F + 1) * (T + 1)) samples m).getD k 0 = 0 := by
  have h2s : 2 * (F + 1) ≤ (F + 1) * (T + 1) := by
    calc 2 * (F + 1) = (F + 1) * 2 := by ring
      _ ≤ (F + 1) * (T + 1) := Nat.mul_le_mul_left _ (by omega)
  constructor
  · intro heights sample k hlen hk
    exact update_preserves_final_column sample heights F _ k hlen h2s hk
  · intro samples m k hk1 _hk2
    induction m with
    | zero => simp [tickN]
    | succ m ih =>
      rw [tickN, update_preserves_final_column (samples m) _ F ((F + 1) * (T + 1)) k
        (tickN_length ..) h2s hk1]
      exact ih

/-- C4: for all valid parameters the geometry build yields
`vertexCount = (frequencySamples + 1) * (timeSamples + 1)`, a heights
buffer of exactly that length, and every entry of the fresh buffer 0. -/
theorem geometry_build_counts_and_zero_heights (p : SpectrogramParams)
    (hT : 0 < p.timeSamples) (hF : 0 < p.frequencySamples)
    (_hx : 0 < p.xsize) (_hy : 0 < p.ysize) :
    (generateVertices p).nVertices = (p.frequencySamples + 1) * (p.timeSamples + 1)
    ∧ calculateVertexCount p.frequencySamples p.timeSamples
        = (p.frequencySamples + 1) * (p.timeSamples + 1)
    ∧ (((generateVertices p).heights.length : ℤ)) = (generateVertices p).nVertices
    ∧ (generateVertices p).heights
        = List.replicate ((p.frequencySamples + 1) * (p.timeSamples + 1)).toNat 0 := by
  refine ⟨rfl, rfl, ?_, ?_⟩
  · show ((generateVerticesHeights p).length : ℤ) = generateVerticesCount p
    rw [generateVerticesHeights_eq, List.length_replicate]
    unfold generateVerticesCount
    have hpos : (0 : ℤ) < (p.frequencySamples + 1) * (p.timeSamples + 1) :=
      mul_pos (by omega) (by omega)
    omega
  · exact generateVerticesHeights_eq p

/-- Witness for the geometry-build theorem at concrete parameters. -/
theorem geometry_build_counts_witness :
    (0 : ℤ) < 2 ∧ (0 : ℤ) < 1 ∧ (0 : ℚ) < 5 ∧ (0 : ℚ) < 3 ∧
      (generateVertices ⟨2, 1, 5, 3⟩).heights = List.replicate 6 0 :=
  ⟨by decide, by decide, by decide, by decide,
    (geometry_build_counts_and_zero_heights ⟨2, 1, 5, 3⟩ (by decide) (by decide)
      (by decide) (by decide)).2.2.2⟩

/-- C5: the FFT window size computed by the code equals the spec's
formula `2^round(log2(4×frequencySamples))` clamped to `[2^8, 2^14]` for
every positive `frequencySamples`, and the three quoted instances hold. -/
theorem fft_window_size_derivation :
    (∀ F : ℤ, 0 < F → calculateFFTSize F = fftWindowSpec F)
    ∧ calculateFFTSize 256 = 1024 ∧ calculateFFTSize 64 = 256
    ∧ calculateFFTSize 512 = 2048 := by
  have hmono : ∀ a b : ℤ, a ≤ b → (2 : ℝ) ^ a ≤ (2 : ℝ) ^ b := fun a b h =>
    zpow_le_zpow_right₀ one_le_two h
  refine ⟨?_, ?_, ?_, ?_⟩
  · intro F hF
    unfold calculateFFTSize getNearestPowerOf2 fftWindowSpec FFT_MULTIPLIER
      MIN_FFT_SIZE MAX_FFT_SIZE
    have hF' : (0 : ℝ) < (F : ℝ) := by exact_mod_cast hF
    have hv : ¬(((4 : ℤ) : ℝ) * (F : ℝ) ≤ 0) := by push_cast; nlinarith
    rw [if_neg hv, logb_two_256, logb_two_16384]
    have hval : ((4 : ℤ) : ℝ) * (F : ℝ) = 4 * (F : ℝ) := by push_cast; ring
    rw [hval]
    set e := round (Real.logb 2 (4 * (F : ℝ))) with he
    have hcast : max (8 : ℝ) (min 14 ((e : ℤ) : ℝ)) = ((max 8 (min 14 e) : ℤ) : ℝ) := by
      push_cast
      rfl
    rw [hcast, Real.rpow_intCast]
    rcases le_total e 8 with h8 | h8
    · have h1 : max 8 (min 14 e) = 8 := by omega
      rw [h1, max_eq_right (hmono e 8 h8), min_eq_left (hmono 8 14 (by omega))]
    · rcases le_total e 14 with h14 | h14
      · have h1 : max 8 (min 14 e) = e := by omega
        rw [h1, max_eq_left (hmono 8 e h8), min_eq_left (hmono e 14 h14)]
      · have h1 : max 8 (min 14 e) = 14 := by omega
        rw [h1, max_eq_left (hmono 8 e (by omega)), min_eq_right (hmono 14 e h14)]
  · show calculateFFTSize 256 = 1024
    unfold calculateFFTSize
    rw [show ((FFT_MULTIPLIER : ℝ) * ((256 : ℤ) : ℝ)) = (2 : ℝ) ^ (10 : ℕ) from by
      norm_num [FFT_MULTIPLIER]]
    rw [getNearestPowerOf2_pow 10 (by norm_num) (by norm_num)]
    norm_num
  · show calculateFFTSize 64 = 256
    unfold calculateFFTSize
    rw [show ((FFT_MULTIPLIER : ℝ) * ((64 : ℤ) : ℝ)) = (2 : ℝ) ^ (8 : ℕ) from by
      norm_num [FFT_MULTIPLIER]]
    rw [getNearestPowerOf2_pow 8 (by norm_num) (by norm_num)]
    norm_num
  · show calculateFFTSize 512 = 2048
    unfold calculateFFTSize
    rw [show ((FFT_MULTIPLIER : ℝ) * ((512 : ℤ) : ℝ)) = (2 : ℝ) ^ (11 : ℕ) from by
      norm_num [FFT_MULTIPLIER]]
    rw [getNearestPowerOf2_pow 11 (by norm_num) (by norm_num)]
    norm_num

/-- Witness for the FFT-size theorem at `frequencySamples = 256`. -/
theorem fft_window_size_derivation_witness :
    (0 : ℤ) < 256 ∧ calculateFFTSize 256 = fftWindowSpec 256 :=
  ⟨by decide, fft_window_size_derivation.1 256 (by decide)⟩

/-- C6: the generated vertex of time-index `i` and frequency-index `j`
has `x = i·(xsize/timeSamples) − xsize/2`,
`y = −e^p + ysize/2 + 1` with `p = ((frequencySamples − j)/frequencySamples)·ln ysize`,
and `z = 0`. -/
theorem vertex_coordinates_formula (p : SpectrogramParams)
    (hT : 0 < p.timeSamples) (hF : 0 < p.frequencySamples) (i j : ℕ)
    (hi : (i : ℤ) ≤ p.timeSamples) (hj : (j : ℤ) ≤ p.frequencySamples) :
    (generateVertices p).vertices[3 * (i * (p.frequencySamples + 1).toNat + j)]?
        = some ((i : ℝ) * ((p.xsize : ℝ) / ((p.timeSamples : ℤ) : ℝ)) - (p.xsize : ℝ) / 2)
    ∧ (generateVertices p).vertices[3 * (i * (p.frequencySamples + 1).toNat + j) + 1]?
        = some (-Real.exp ((((p.frequencySamples : ℤ) : ℝ) - (j : ℝ))
              / ((p.frequencySamples : ℤ) : ℝ) * Real.log (p.ysize : ℝ))
            + (p.ysize : ℝ) / 2 + 1)
    ∧ (generateVertices p).vertices[3 * (i * (p.frequencySamples + 1).toNat + j) + 2]?
        = some 0 := by
  have hi' : i < (p.timeSamples + 1).toNat := by omega
  have hj' : j < (p.frequencySamples + 1).toNat := by omega
  simp only [generateVertices]
  refine ⟨?_, ?_, ?_⟩
  · have e : 3 * (i * (p.frequencySamples + 1).toNat + j)
        = i * ((p.frequencySamples + 1).toNat * 3) + (j * 3 + 0) := by ring
    rw [e, generateVerticesList_getElem p i j 0 hi' hj' (by omega)]
    rfl
  · have e : 3 * (i * (p.frequencySamples + 1).toNat + j) + 1
        = i * ((p.frequencySamples + 1).toNat * 3) + (j * 3 + 1) := by ring
    rw [e, generateVerticesList_getElem p i j 1 hi' hj' (by omega)]
    simp only [List.getElem?_cons_succ, List.getElem?_cons_zero, Option.some.injEq,
      calculateLogarithmicY]
    push_cast
    ring
  · have e : 3 * (i * (p.frequencySamples + 1).toNat + j) + 2
        = i * ((p.frequencySamples + 1).toNat * 3) + (j * 3 + 2) := by ring
    rw [e, generateVerticesList_getElem p i j 2 hi' hj' (by omega)]
    rfl

/-- Witness for the vertex-coordinate theorem at concrete parameters. -/
theorem vertex_coordinates_formula_witness :
    (0 : ℤ) < 1 ∧ (0 : ℤ) < 1 ∧ ((0 : ℕ) : ℤ) ≤ 1 ∧ ((1 : ℕ) : ℤ) ≤ 1 ∧
      (generateVertices ⟨1, 1, 2, 3⟩).vertices[3 * (0 * ((1 : ℤ) + 1).toNat + 1) + 2]?
        = some 0 :=
  ⟨by decide, by decide, by decide, by decide,
    (vertex_coordinates_formula ⟨1, 1, 2, 3⟩ (by decide) (by decide) 0 1 (by decide)
      (by decide)).2.2⟩

/-- C7: the index buffer has exactly `timeSamples·frequencySamples·6`
entries, and the six entries of quad `(i, j)` are the two triangles
`(a, b, d)` then `(b, c, d)` with
`a = i(F+1)+(j+1)`, `b = i(F+1)+j`, `c = (i+1)(F+1)+j`, `d = (i+1)(F+1)+(j+1)`. -/
theorem index_buffer_two_triangles_per_quad (timeSamples frequencySamples : ℤ) :
    (generateIndices timeSamples frequencySamples).length
        = timeSamples.toNat * (frequencySamples.toNat * 6)
    ∧ ∀ i j comp : ℕ, (i : ℤ) < timeSamples → (j : ℤ) < frequencySamples → comp < 6 →
      (generateIndices timeSamples frequencySamples)[i * (frequencySamples.toNat * 6)
          + (j * 6 + comp)]? =
        [(i : ℤ) * (frequencySamples + 1) + ((j : ℤ) + 1),
          (i : ℤ) * (frequencySamples + 1) + (j : ℤ),
          ((i : ℤ) + 1) * (frequencySamples + 1) + ((j : ℤ) + 1),
          (i : ℤ) * (frequencySamples + 1) + (j : ℤ),
          ((i : ℤ) + 1) * (frequencySamples + 1) + (j : ℤ),
          ((i : ℤ) + 1) * (frequencySamples + 1) + ((j : ℤ) + 1)][comp]? := by
  constructor
  · simp only [generateIndices]
    rw [flatMap_length_const
      (fun i => (List.range frequencySamples.toNat).flatMap fun j =>
        [(i : ℤ) * (frequencySamples + 1) + ((j : ℤ) + 1),
          (i : ℤ) * (frequencySamples + 1) + (j : ℤ),
          ((i : ℤ) + 1) * (frequencySamples + 1) + ((j : ℤ) + 1),
          (i : ℤ) * (frequencySamples + 1) + (j : ℤ),
          ((i : ℤ) + 1) * (frequencySamples + 1) + (j : ℤ),
          ((i : ℤ) + 1) * (frequencySamples + 1) + ((j : ℤ) + 1)])
      (frequencySamples.toNat * 6) timeSamples.toNat
      (fun k => flatMap_length_const _ 6 _ (fun _ => rfl))]
  · intro i j comp hi hj hc
    have hi' : i < timeSamples.toNat := by omega
    have hj' : j < frequencySamples.toNat := by omega
    simp only [generateIndices]
    rw [flatMap_range_getElem
        (fun i => (List.range frequencySamples.toNat).flatMap fun j =>
          [(i : ℤ) * (frequencySamples + 1) + ((j : ℤ) + 1),
            (i : ℤ) * (frequencySamples + 1) + (j : ℤ),
            ((i : ℤ) + 1) * (frequencySamples + 1) + ((j : ℤ) + 1),
            (i : ℤ) * (frequencySamples + 1) + (j : ℤ),
            ((i : ℤ) + 1) * (frequencySamples + 1) + (j : ℤ),
            ((i : ℤ) + 1) * (frequencySamples + 1) + ((j : ℤ) + 1)])
        (frequencySamples.toNat * 6)
        (fun k => flatMap_length_const _ 6 _ (fun _ => rfl)) i (j * 6 + comp)
        (by omega) _ hi',
      flatMap_range_getElem
        (fun j =>
          [(i : ℤ) * (frequencySamples + 1) + ((j : ℤ) + 1),
            (i : ℤ) * (frequencySamples + 1) + (j : ℤ),
            ((i : ℤ) + 1) * (frequencySamples + 1) + ((j : ℤ) + 1),
            (i : ℤ) * (frequencySamples + 1) + (j : ℤ),
            ((i : ℤ) + 1) * (frequencySamples + 1) + (j : ℤ),
            ((i : ℤ) + 1) * (frequencySamples + 1) + ((j : ℤ) + 1)])
        6 (fun _ => rfl) j comp hc _ hj']

/-- Witness for the index-buffer theorem at the first quad. -/
theorem index_buffer_two_triangles_witness :
    ((0 : ℕ) : ℤ) < 1 ∧ (0 : ℕ) < 6 ∧
      (generateIndices 1 1)[0 * ((1 : ℤ).toNat * 6) + (0 * 6 + 0)]? =
        [((0 : ℕ) : ℤ) * ((1 : ℤ) + 1) + (((0 : ℕ) : ℤ) + 1),
          ((0 : ℕ) : ℤ) * ((1 : ℤ) + 1) + ((0 : ℕ) : ℤ),
          (((0 : ℕ) : ℤ) + 1) * ((1 : ℤ) + 1) + (((0 : ℕ) : ℤ) + 1),
          ((0 : ℕ) : ℤ) * ((1 : ℤ) + 1) + ((0 : ℕ) : ℤ),
          (((0 : ℕ) : ℤ) + 1) * ((1 : ℤ) + 1) + ((0 : ℕ) : ℤ),
          (((0 : ℕ) : ℤ) + 1) * ((1 : ℤ) + 1) + (((0 : ℕ) : ℤ) + 1)][(0 : ℕ)]? :=
  ⟨by decide, by decide,
    (index_buffer_two_triangles_per_quad 1 1).2 0 0 0 (by decide) (by decide) (by decide)⟩

/-- Witness for the final-column theorem after two ticks. -/
theorem final_column_stays_zero_witness :
    1 ≤ 1 ∧ (1 + 1) * (1 + 1) - (1 + 1) ≤ 3 ∧ 3 < (1 + 1) * (1 + 1) ∧
      (tickN 1 ((1 + 1) * (1 + 1)) (fun _ => [200]) 2).getD 3 0 = 0 :=
  ⟨by decide, by decide, by decide,
    (final_column_stays_zero 1 1 (by decide)).2 (fun _ => [200]) 2 3 (by decide) (by decide)⟩

/-- C8: validation accepts (valid, no errors) exactly when all four
parameters are positive, and a failed validation makes the geometry
(re)build a no-op on the stored geometry state. -/
theorem validation_accepts_iff_positive (p : SpectrogramParams) :
    (((validateParameters p).valid = true ∧ (validateParameters p).errors = []) ↔
      (0 < p.xsize ∧ 0 < p.ysize ∧ 0 < p.frequencySamples ∧ 0 < p.timeSamples))
    ∧ ∀ st : ThreeRefs, (validateParameters p).valid = false → initThree p st = st := by
  constructor
  · by_cases h1 : p.xsize ≤ 0 <;> by_cases h2 : p.ysize ≤ 0 <;>
      by_cases h3 : p.frequencySamples ≤ 0 <;> by_cases h4 : p.timeSamples ≤ 0 <;>
      simp [validateParameters, h1, h2, h3, h4, ← not_le]
  · intro st hv
    simp [initThree, hv]

/-- Witness for the validation theorem: a negative `xsize` is rejected
and the previous geometry state survives. -/
theorem validation_accepts_iff_positive_witness :
    (validateParameters ⟨600, 256, -1, 30⟩).valid = false ∧
      initThree ⟨600, 256, -1, 30⟩ ⟨some [7], some 9⟩ = ⟨some [7], some 9⟩ :=
  ⟨by decide,
    (validation_accepts_iff_positive ⟨600, 256, -1, 30⟩).2 ⟨some [7], some 9⟩ (by decide)⟩

/-- C9: for each of the eleven schemes, any intensity below 0.01 maps to
that scheme's fixed dark tint, independently of the intensity (the
mapping itself is a pure function of intensity and scheme). -/
theorem near_zero_intensity_uses_dark_tint (s : ℤ) (t : ℚ)
    (_hs0 : 0 ≤ s) (_hs1 : s ≤ 10) (ht : t < 0.01) :
    fragmentMain t s = darkTint s ∧ fragmentMain t s = fragmentMain 0 s := by
  constructor
  · simp only [fragmentMain]
    rw [if_pos ht]
    rfl
  · simp only [fragmentMain]
    rw [if_pos ht, if_pos (show (0 : ℚ) < 0.01 by norm_num)]

/-- Witness for the dark-tint theorem: scheme 3 (purple) at intensity 0. -/
theorem near_zero_intensity_uses_dark_tint_witness :
    (0 : ℤ) ≤ 3 ∧ (3 : ℤ) ≤ 10 ∧ (0 : ℚ) < 0.01 ∧ fragmentMain 0 3 = darkTint 3 :=
  ⟨by decide, by decide, by norm_num,
    (near_zero_intensity_uses_dark_tint 3 0 (by decide) (by decide) (by norm_num)).1⟩

lemma cleanupAudio_eq (src : Option SourceNode) (ctx : Option AudioCtx) :
    cleanupAudio src ctx =
      .ok (src.map fun _ => ⟨false⟩, ctx.map fun _ => ⟨CtxState.closed⟩) := by
  rcases src with _ | ⟨(_ | _)⟩ <;> rcases ctx with _ | ⟨(_ | _ | _)⟩ <;> rfl

lemma stopMicrophone_eq (stream : Option (List MediaTrack)) (ctx : Option AudioCtx) :
    stopMicrophone stream ctx =
      .ok (stream.map fun ts => ts.map stopTrack, ctx.map fun _ => ⟨CtxState.closed⟩) := by
  rcases stream with _ | ts <;> rcases ctx with _ | ⟨(_ | _ | _)⟩ <;> rfl

/-- C10: both teardown operations are total (they return `.ok`, never an
error) on every input — including `null`, already-disconnected or
already-closed resources — they leave the session's resources released,
and running them again from the released state changes nothing. -/
theorem teardown_idempotent_and_total (src : Option SourceNode) (ctx : Option AudioCtx)
    (stream : Option (List MediaTrack)) (mctx : Option AudioCtx) :
    (∃ st, cleanupAudio src ctx = .ok st ∧ audioReleased st ∧
      cleanupAudio st.1 st.2 = .ok st)
    ∧ ∃ st2, stopMicrophone stream mctx = .ok st2 ∧ micReleased st2 ∧
      stopMicrophone st2.1 st2.2 = .ok st2 := by
  constructor
  · refine ⟨(src.map fun _ => ⟨false⟩, ctx.map fun _ => ⟨CtxState.closed⟩),
      cleanupAudio_eq src ctx, ?_, ?_⟩
    · simp only [audioReleased]
      constructor
      · intro s hs
        rcases src with _ | s0
        · simp at hs
        · simp only [Option.map_some', Option.mem_def, Option.some.injEq] at hs
          subst hs
          rfl
      · intro c hc
        rcases ctx with _ | c0
        · simp at hc
        · simp only [Option.map_some', Option.mem_def, Option.some.injEq] at hc
          subst hc
          rfl
    · rw [cleanupAudio_eq]
      simp [Option.map_map, Function.comp_def]
  · refine ⟨(stream.map fun ts => ts.map stopTrack, mctx.map fun _ => ⟨CtxState.closed⟩),
      stopMicrophone_eq stream mctx, ?_, ?_⟩
    · simp only [micReleased]
      constructor
      · intro ts hts t htm
        rcases stream with _ | ts0
        · simp_all
        · simp only [Option.map_some', Option.mem_def, Option.some.injEq] at hts
          subst hts
          rcases List.mem_map.mp htm with ⟨t0, _, rfl⟩
          rfl
      · intro c hc
        rcases mctx with _ | c0
        · simp at hc
        · simp only [Option.map_some', Option.mem_def, Option.some.injEq] at hc
          subst hc
          rfl
    · rw [stopMicrophone_eq]
      simp only [Option.map_map, Function.comp_def, List.map_map]
      rfl

end Spectrogram
